import Mathlib

/-!
Verification of the Continuous-Claude-v2 gate specification.

The repository ships one source file, `scripts/web_scrape_local.py`
(the web-content-extraction utility); the gate core described by the
spec (violation classifier, edit-state ledger, backup store, change-set
detector, command-safety filter) is not present under `src/`, so those
components are modelled directly from the spec's words.  The web
scraper is embedded from the Python source.
-/

namespace Gate

/-- A lint finding: `code` (category tag), `line` (1-based position),
`message` (human text).  From spec §3 ViolationDescriptor. -/
structure ViolationDescriptor where
  code : String
  line : Nat
  message : String
deriving DecidableEq, Repr

/-- Modelled from the spec: §4.4 Violation Classifier rule for a single
violation.  A violation is blocking iff its code is not ignored and its
line is in the changed-line set. -/
def isBlocking (changedLines : List Nat) (ignoredCodes : List String)
    (v : ViolationDescriptor) : Bool :=
  !(ignoredCodes.contains v.code) && changedLines.contains v.line

/-- Modelled from the spec: §4.4 `classify(violations, changedLines,
ignoredCodes) -> (blocking, informational)`, applied per violation in
input order.  `if code ∈ ignoredCodes → informational, regardless of
line. Else if line ∈ changedLines → blocking. Else → informational.` -/
def classify (violations : List ViolationDescriptor) (changedLines : List Nat)
    (ignoredCodes : List String) :
    List ViolationDescriptor × List ViolationDescriptor :=
  match violations with
  | [] => ([], [])
  | v :: rest =>
    let (b, i) := classify rest changedLines ignoredCodes
    if ignoredCodes.contains v.code then (b, v :: i)
    else if changedLines.contains v.line then (v :: b, i)
    else (b, v :: i)

/-- Modelled from the spec: §3 EditRecord — one per file path under an
open iteration: baseline snapshot reference (owned exclusively), optional
most-recent rejected snapshot reference, rejection count `iteration`
(starts at 0), the violations of the most recent rejection, and the
baseline creation time used for staleness eviction. -/
structure EditRecord where
  baselineRef : Nat
  rejectedRef : Option Nat
  iteration : Nat
  violations : List ViolationDescriptor
  createdAt : Nat
deriving DecidableEq, Repr

/-- Pointwise update of a partial map. -/
def setFun {α β : Type} [DecidableEq α] (f : α → Option β) (k : α) (v : Option β) :
    α → Option β :=
  fun q => if q = k then v else f q

/-- Lookup in the ledger (file path → EditRecord, keys unique). -/
def lookupRec : List (String × EditRecord) → String → Option EditRecord
  | [], _ => none
  | e :: rest, p => if e.1 = p then some e.2 else lookupRec rest p

/-- Remove every entry for a path from the ledger. -/
def removeRec : List (String × EditRecord) → String → List (String × EditRecord)
  | [], _ => []
  | e :: rest, p => if e.1 = p then removeRec rest p else e :: removeRec rest p

/-- Replace the ledger's entry for a path. -/
def setRec (recs : List (String × EditRecord)) (p : String) (r : EditRecord) :
    List (String × EditRecord) :=
  (p, r) :: removeRec recs p

/-- Modelled from the spec: §2/§6 shared mutable state — the on-disk file
contents, the Backup Store (immutable snapshot contents keyed by opaque
reference), the Edit State Ledger document (file path → EditRecord), and
a fresh-reference counter (snapshot names avoid collisions). -/
structure LedgerState where
  disk : String → Option String
  snapshots : Nat → Option String
  records : List (String × EditRecord)
  nextRef : Nat

/-- Modelled from the spec: §4.2 `beginEdit(filePath)` — if no record
exists and the file exists on disk, snapshot the baseline and create a
new EditRecord with iteration 0; no-op if a record already exists. -/
def beginEdit (s : LedgerState) (path : String) (now : Nat) : LedgerState :=
  match lookupRec s.records path with
  | some _ => s
  | none =>
    match s.disk path with
    | none => s
    | some content =>
      { s with
        snapshots := setFun s.snapshots s.nextRef (some content)
        records := setRec s.records path ⟨s.nextRef, none, 0, [], now⟩
        nextRef := s.nextRef + 1 }

/-- Modelled from the spec: §4.2 `recordRejection(filePath, violations)` —
requires an existing record, fails silently (state unchanged) if none
exists.  On success: snapshots the current (broken) content as rejected,
releases any prior rejected snapshot, increments `iteration`, replaces
`violations`, then restores the file on disk from the baseline snapshot's
content. -/
def recordRejection (s : LedgerState) (path : String)
    (violations : List ViolationDescriptor) : LedgerState :=
  match lookupRec s.records path with
  | none => s
  | some r =>
    let snaps1 := match s.disk path with
      | some broken => setFun s.snapshots s.nextRef (some broken)
      | none => s.snapshots
    let rejRef : Option Nat := match s.disk path with
      | some _ => some s.nextRef
      | none => none
    let next1 := match s.disk path with
      | some _ => s.nextRef + 1
      | none => s.nextRef
    let snaps2 := match r.rejectedRef with
      | some old => setFun snaps1 old none
      | none => snaps1
    let disk2 := match snaps2 r.baselineRef with
      | some base => setFun s.disk path (some base)
      | none => s.disk
    { disk := disk2
      snapshots := snaps2
      records := setRec s.records path
        { r with rejectedRef := rejRef, iteration := r.iteration + 1,
                 violations := violations }
      nextRef := next1 }

/-- Release both snapshot references owned by a record. -/
def releaseRefs (snaps : Nat → Option String) (r : EditRecord) : Nat → Option String :=
  let s1 := setFun snaps r.baselineRef none
  match r.rejectedRef with
  | some rr => setFun s1 rr none
  | none => s1

/-- Modelled from the spec: §4.2 `complete(filePath)` — releases both
snapshots and removes the record; no-op when no record exists. -/
def complete (s : LedgerState) (path : String) : LedgerState :=
  match lookupRec s.records path with
  | none => s
  | some r =>
    { s with
      snapshots := releaseRefs s.snapshots r
      records := removeRec s.records path }

/-- A record is stale when its age (now − createdAt) exceeds maxAge. -/
def staleRec (now maxAge : Nat) (r : EditRecord) : Bool :=
  decide (maxAge < now - r.createdAt)

/-- Modelled from the spec: §4.2 `sweepStale(maxAge)` — removes and
releases any record whose age exceeds maxAge. -/
def sweepStale (s : LedgerState) (now maxAge : Nat) : LedgerState :=
  { s with
    records := s.records.filter (fun e => ! staleRec now maxAge e.2)
    snapshots := (s.records.filter (fun e => staleRec now maxAge e.2)).foldl
      (fun sn e => releaseRefs sn e.2) s.snapshots }

/-- A command-safety pattern rule: the pattern text and the human-readable
reason reported when it matches.  From spec §4.5. -/
structure PatternRule where
  pattern : String
  reason : String
deriving DecidableEq, Repr

/-- Lower-cased character list of a string (ASCII case folding). -/
def lowerL (s : String) : List Char := s.data.map Char.toLower

/-- The string with every character upper-cased (a case variant used to
state case-insensitivity). -/
def upperStr (s : String) : String := ⟨s.data.map Char.toUpper⟩

/-- Modelled from the spec: §4.5 — a rule matches when its pattern occurs
in the command text, compared case-insensitively. -/
def ruleMatches (r : PatternRule) (cmd : String) : Bool :=
  decide (lowerL r.pattern <:+: lowerL cmd)

/-- Modelled from the spec: §4.5 `checkCommand(command) -> (safe, reason)`
— evaluates the ordered rule list against the command text
case-insensitively and returns the first matching rule's reason with
safe = false, or safe = true (no reason) when no rule matches. -/
def checkCommand (rules : List PatternRule) (cmd : String) : Bool × Option String :=
  match rules with
  | [] => (true, none)
  | r :: rest =>
    if ruleMatches r cmd then (false, some r.reason) else checkCommand rest cmd

/-- Modelled from the spec: §4.3 `computeChangedLines` when a prior
baseline exists — positional line-by-line comparison (1-based indices:
line i of baseline vs line i of current differ ⇒ i is changed); when the
line counts differ, every index from min(oldCount, newCount)+1 through
max(oldCount, newCount)+1 is conservatively marked changed as well. -/
def computeChangedLines (baseline current : List String) : List Nat :=
  let oldCount := baseline.length
  let newCount := current.length
  let m := Nat.min oldCount newCount
  let positional := (List.range m).filterMap
    (fun i => if baseline[i]? = current[i]? then none else some (i + 1))
  let tailChanged :=
    if oldCount = newCount then []
    else List.range' (m + 1) (Nat.max oldCount newCount - m + 1)
  positional ++ tailChanged

end Gate

namespace WebScrape

/-- Python truthiness of an optional string: `None` and the empty string
are falsy (`if not downloaded`, `result or ...` in the script). -/
def truthy : Option String → Bool
  | none => false
  | some s => ! s.isEmpty

/-- Embedding of `scrape_url` from src/scripts/web_scrape_local.py (lines 41–68), with
the external trafilatura calls passed in as oracle functions; a Python
`None` return is `none`, an empty-string return is `some ""`. -/
def scrape_url (fetch_url : String → Option String)
    (extract : String → String → Bool → Bool → Option String)
    (url output_format : String) (include_links include_images : Bool) : String :=
  match fetch_url url with
  | none => "ERROR: Could not fetch " ++ url
  | some downloaded =>
    if downloaded.isEmpty then "ERROR: Could not fetch " ++ url
    else
      match extract downloaded output_format include_links include_images with
      | none => "ERROR: Could not extract content from " ++ url
      | some result =>
        if result.isEmpty then "ERROR: Could not extract content from " ++ url
        else result

/-- The parsed command line of web_scrape_local.py `main` (lines 82–113):
optional positional `url`, optional `--url` flag value, `--format`
(defaulted to "markdown" by argparse), and the four store-true flags. -/
structure Args where
  url : Option String
  url_flag : Option String
  format : String
  include_links : Bool
  no_links : Bool
  include_images : Bool
  no_images : Bool
deriving DecidableEq, Repr

/-- Python `a or b` on optional strings: `a` when truthy, else `b`. -/
def pyOr (a b : Option String) : Option String := if truthy a then a else b

/-- The argparse usage line printed by `parser.print_help()`. -/
def helpText : String :=
  "usage: web_scrape_local.py [-h] [--url URL_FLAG] [--format \x7bmarkdown,txt,xml\x7d] [--include-links] [--no-links] [--include-images] [--no-images] [url]"

/-- Observable outcome of `main`: either the help text printed together
with the exit status, or the scraped content printed. -/
inductive MainResult where
  | helpExit (printed : String) (status : Nat)
  | output (s : String)
deriving DecidableEq, Repr

/-- Embedding of `main` from src/scripts/web_scrape_local.py (lines 71–129), with the
scrape call abstracted as an oracle (in the script it is `scrape_url`
applied to trafilatura): `url = args.url or args.url_flag`; if url is
falsy, print help and exit 1; otherwise print `scrape_url(url,
args.format, not args.no_links, not args.no_images)`. -/
def main (scrape : String → String → Bool → Bool → String) (args : Args) : MainResult :=
  let url := pyOr args.url args.url_flag
  if truthy url then
    MainResult.output
      (scrape (url.getD "") args.format (! args.no_links) (! args.no_images))
  else
    MainResult.helpExit helpText 1

end WebScrape

namespace Gate

theorem classify_eq_partition (V : List ViolationDescriptor)
    (C : List Nat) (I : List String) :
    classify V C I =
      (V.filter (isBlocking C I), V.filter (fun v => !(isBlocking C I v))) := by
  induction V with
  | nil => rfl
  | cons v rest ih =>
    simp only [classify, ih, List.filter_cons, isBlocking]
    by_cases hc : v.code ∈ I <;> by_cases hl : v.line ∈ C <;>
      simp [hc, hl]

/-- C1: for every list of violations V, every changed-line set C, and every
ignored-code set I, `classify V C I` returns two lists (blocking,
informational) that partition V exactly: their multiset union equals V
(the concatenation is a permutation of V) and no violation appears in both
lists, so no violation is ever dropped or duplicated. -/
theorem classify_partitions_exactly (V : List ViolationDescriptor)
    (C : List Nat) (I : List String) :
    ((classify V C I).1 ++ (classify V C I).2).Perm V ∧
    (classify V C I).1.Disjoint (classify V C I).2 := by
  rw [classify_eq_partition]
  refine ⟨List.filter_append_perm _ V, ?_⟩
  intro v hb hi
  rw [List.mem_filter] at hb hi
  rw [hb.2] at hi
  exact absurd hi.2 (by simp)

theorem classify_partitions_exactly_witness :
    ((classify [⟨"E1", 5, "m"⟩, ⟨"I0", 2, "n"⟩] [5] ["I0"]).1 ++
        (classify [⟨"E1", 5, "m"⟩, ⟨"I0", 2, "n"⟩] [5] ["I0"]).2).Perm
      [⟨"E1", 5, "m"⟩, ⟨"I0", 2, "n"⟩] ∧
    (classify [⟨"E1", 5, "m"⟩, ⟨"I0", 2, "n"⟩] [5] ["I0"]).1.Disjoint
      (classify [⟨"E1", 5, "m"⟩, ⟨"I0", 2, "n"⟩] [5] ["I0"]).2 :=
  classify_partitions_exactly _ _ _

/-- C2: every violation v in the input is placed by the rule — ignored
code → informational regardless of line, else changed line → blocking,
else informational — and each output list is a sublist of the input, so
the relative input order is preserved within each output list. -/
theorem classify_rule_and_order (V : List ViolationDescriptor)
    (C : List Nat) (I : List String) :
    (∀ v ∈ V, (v.code ∈ I → v ∈ (classify V C I).2) ∧
      (v.code ∉ I → v.line ∈ C → v ∈ (classify V C I).1) ∧
      (v.code ∉ I → v.line ∉ C → v ∈ (classify V C I).2)) ∧
    (classify V C I).1.Sublist V ∧ (classify V C I).2.Sublist V := by
  rw [classify_eq_partition]
  refine ⟨?_, List.filter_sublist V, List.filter_sublist V⟩
  intro v hv
  refine ⟨fun hc => ?_, fun hc hl => ?_, fun hc hl => ?_⟩ <;>
    simp [List.mem_filter, isBlocking, hv, hc] <;> simp_all

theorem classify_rule_and_order_witness :
    (∀ v ∈ [ViolationDescriptor.mk "E1" 5 "m"],
      (v.code ∈ ["I0"] → v ∈ (classify [⟨"E1", 5, "m"⟩] [5] ["I0"]).2) ∧
      (v.code ∉ ["I0"] → v.line ∈ [5] →
        v ∈ (classify [⟨"E1", 5, "m"⟩] [5] ["I0"]).1) ∧
      (v.code ∉ ["I0"] → v.line ∉ [5] →
        v ∈ (classify [⟨"E1", 5, "m"⟩] [5] ["I0"]).2)) ∧
    (classify [⟨"E1", 5, "m"⟩] [5] ["I0"]).1.Sublist [⟨"E1", 5, "m"⟩] ∧
    (classify [⟨"E1", 5, "m"⟩] [5] ["I0"]).2.Sublist [⟨"E1", 5, "m"⟩] :=
  classify_rule_and_order _ _ _

theorem lookupRec_setRec_self (recs : List (String × EditRecord)) (p : String)
    (r : EditRecord) : lookupRec (setRec recs p r) p = some r := by
  simp [setRec, lookupRec]

theorem lookupRec_removeRec_self (recs : List (String × EditRecord)) (p : String) :
    lookupRec (removeRec recs p) p = none := by
  induction recs with
  | nil => rfl
  | cons e rest ih =>
    by_cases h : e.1 = p
    · simp [removeRec, h, ih]
    · simp [removeRec, lookupRec, h, ih]

theorem recordRejection_disk_restored (s2 : LedgerState) (p : String)
    (r : EditRecord) (c broken : String) (viols : List ViolationDescriptor)
    (hrec : lookupRec s2.records p = some r)
    (hdisk2 : s2.disk p = some broken)
    (hrej : r.rejectedRef = none)
    (hbase : s2.snapshots r.baselineRef = some c)
    (hne : r.baselineRef ≠ s2.nextRef) :
    (recordRejection s2 p viols).disk p = some c := by
  have h1 : setFun s2.snapshots s2.nextRef (some broken) r.baselineRef = some c := by
    unfold setFun
    rw [if_neg hne, hbase]
  simp only [recordRejection, hrec, hdisk2, hrej, h1]
  simp [setFun]

/-- C3: the file's on-disk content after a successful recordRejection is
byte-identical to the baseline content captured at the most recent
beginEdit: starting from a state with no record for the path and content
c on disk, beginEdit captures c as the baseline, the agent's edit
overwrites the file with broken content, and recordRejection restores c
on disk. -/
theorem recordRejection_restores_baseline (s : LedgerState) (p : String)
    (c broken : String) (now : Nat) (viols : List ViolationDescriptor)
    (hnorec : lookupRec s.records p = none)
    (hdisk : s.disk p = some c) :
    (recordRejection
      { beginEdit s p now with
        disk := setFun (beginEdit s p now).disk p (some broken) }
      p viols).disk p = some c := by
  have hbe : beginEdit s p now =
      { s with
        snapshots := setFun s.snapshots s.nextRef (some c)
        records := setRec s.records p ⟨s.nextRef, none, 0, [], now⟩
        nextRef := s.nextRef + 1 } := by
    simp [beginEdit, hnorec, hdisk]
  rw [hbe]
  apply recordRejection_disk_restored _ p ⟨s.nextRef, none, 0, [], now⟩ c broken viols
  · exact lookupRec_setRec_self s.records p _
  · simp [setFun]
  · rfl
  · simp [setFun]
  · simp

theorem recordRejection_restores_baseline_witness :
    lookupRec (LedgerState.mk (fun q => if q = "a.py" then some "good" else none)
        (fun _ => none) [] 0).records "a.py" = none ∧
    (LedgerState.mk (fun q => if q = "a.py" then some "good" else none)
        (fun _ => none) [] 0).disk "a.py" = some "good" ∧
    (recordRejection
      { beginEdit (LedgerState.mk (fun q => if q = "a.py" then some "good" else none)
            (fun _ => none) [] 0) "a.py" 7 with
        disk := setFun (beginEdit (LedgerState.mk
              (fun q => if q = "a.py" then some "good" else none)
              (fun _ => none) [] 0) "a.py" 7).disk "a.py" (some "broken") }
      "a.py" []).disk "a.py" = some "good" :=
  ⟨rfl, by decide,
    recordRejection_restores_baseline _ "a.py" "good" "broken" 7 [] rfl (by decide)⟩

/-- C4: beginEdit on an already-tracked file (an edit record exists, no
intervening rejection) is a no-op: the state is unchanged, and in
particular the stored baseline snapshot reference is unchanged. -/
theorem beginEdit_idempotent (s : LedgerState) (p : String) (r : EditRecord)
    (now : Nat) (h : lookupRec s.records p = some r) :
    beginEdit s p now = s ∧
    (lookupRec (beginEdit s p now).records p).map EditRecord.baselineRef =
      some r.baselineRef := by
  have hb : beginEdit s p now = s := by simp [beginEdit, h]
  refine ⟨hb, ?_⟩
  rw [hb, h]
  rfl

theorem beginEdit_idempotent_witness :
    lookupRec (LedgerState.mk (fun _ => none) (fun _ => none)
        [("a.py", ⟨3, none, 0, [], 1⟩)] 4).records "a.py" = some ⟨3, none, 0, [], 1⟩ ∧
    (beginEdit (LedgerState.mk (fun _ => none) (fun _ => none)
        [("a.py", ⟨3, none, 0, [], 1⟩)] 4) "a.py" 9 =
      LedgerState.mk (fun _ => none) (fun _ => none)
        [("a.py", ⟨3, none, 0, [], 1⟩)] 4 ∧
    (lookupRec (beginEdit (LedgerState.mk (fun _ => none) (fun _ => none)
        [("a.py", ⟨3, none, 0, [], 1⟩)] 4) "a.py" 9).records "a.py").map
      EditRecord.baselineRef = some 3) :=
  ⟨by decide, beginEdit_idempotent _ "a.py" ⟨3, none, 0, [], 1⟩ 9 (by decide)⟩

theorem lookupRec_eq_none_of_not_mem_keys (p : String) :
    ∀ recs : List (String × EditRecord), p ∉ recs.map Prod.fst →
      lookupRec recs p = none := by
  intro recs
  induction recs with
  | nil => intro _; rfl
  | cons e rest ih =>
    intro h
    rw [List.map_cons, List.mem_cons] at h
    push_neg at h
    rw [lookupRec, if_neg (fun he => h.1 he.symm)]
    exact ih h.2

theorem lookupRec_filter_eq_none (p : String) (q : String × EditRecord → Bool) :
    ∀ recs : List (String × EditRecord), lookupRec recs p = none →
      lookupRec (recs.filter q) p = none := by
  intro recs
  induction recs with
  | nil => intro _; rfl
  | cons e rest ih =>
    intro h
    rw [lookupRec] at h
    by_cases he : e.1 = p
    · rw [if_pos he] at h
      exact absurd h (by simp)
    · rw [if_neg he] at h
      rw [List.filter_cons]
      by_cases hq : q e
      · rw [if_pos hq, lookupRec, if_neg he]
        exact ih h
      · rw [if_neg hq]
        exact ih h

theorem lookupRec_sweep_none (now maxAge : Nat) (p : String) :
    ∀ recs : List (String × EditRecord), (recs.map Prod.fst).Nodup →
      ∀ r : EditRecord, lookupRec recs p = some r →
        staleRec now maxAge r = true →
        lookupRec (recs.filter (fun e => ! staleRec now maxAge e.2)) p = none := by
  intro recs
  induction recs with
  | nil => intro _ r h _; exact absurd h (by simp [lookupRec])
  | cons e rest ih =>
    intro hnodup r h hstale
    rw [List.map_cons, List.nodup_cons] at hnodup
    rw [lookupRec] at h
    by_cases he : e.1 = p
    · rw [if_pos he] at h
      injection h with h2
      rw [List.filter_cons]
      have hqe : (! staleRec now maxAge e.2) = false := by rw [h2, hstale]; rfl
      rw [hqe]
      simp only [Bool.false_eq_true, if_false]
      apply lookupRec_filter_eq_none
      apply lookupRec_eq_none_of_not_mem_keys
      rw [← he]
      exact hnodup.1
    · rw [if_neg he] at h
      rw [List.filter_cons]
      by_cases hq : (! staleRec now maxAge e.2) = true
      · rw [if_pos hq, lookupRec, if_neg he]
        exact ih hnodup.2 r h hstale
      · rw [if_neg hq]
        exact ih hnodup.2 r h hstale

/-- C5: a successful recordRejection on an existing record increases its
iteration by exactly 1; the record (hence its iteration) disappears only
on removal — complete removes it, sweepStale evicts it when stale — and
after removal the next beginEdit (no record, file present on disk)
creates a record with iteration 0. -/
theorem iteration_monotonic (s t : LedgerState) (p : String) (r : EditRecord)
    (viols : List ViolationDescriptor) (now maxAge m : Nat) (c : String)
    (h : lookupRec s.records p = some r)
    (hnodup : (s.records.map Prod.fst).Nodup)
    (hstale : staleRec now maxAge r = true)
    (ht : lookupRec t.records p = none)
    (htdisk : t.disk p = some c) :
    (lookupRec (recordRejection s p viols).records p).map EditRecord.iteration =
      some (r.iteration + 1) ∧
    lookupRec (complete s p).records p = none ∧
    lookupRec (sweepStale s now maxAge).records p = none ∧
    (lookupRec (beginEdit t p m).records p).map EditRecord.iteration = some 0 := by
  refine ⟨?_, ?_, ?_, ?_⟩
  · simp only [recordRejection, h, lookupRec_setRec_self]
    rfl
  · simp only [complete, h, lookupRec_removeRec_self]
  · exact lookupRec_sweep_none now maxAge p s.records hnodup r h hstale
  · simp only [beginEdit, ht, htdisk, lookupRec_setRec_self]
    rfl

theorem iteration_monotonic_witness :
    lookupRec (LedgerState.mk (fun _ => none) (fun _ => none)
        [("a.py", ⟨3, none, 2, [], 0⟩)] 4).records "a.py" = some ⟨3, none, 2, [], 0⟩ ∧
    ((LedgerState.mk (fun _ => none) (fun _ => none)
        [("a.py", ⟨3, none, 2, [], 0⟩)] 4).records.map Prod.fst).Nodup ∧
    staleRec 100 10 ⟨3, none, 2, [], 0⟩ = true ∧
    lookupRec (LedgerState.mk (fun q => if q = "a.py" then some "hello" else none)
        (fun _ => none) [] 0).records "a.py" = none ∧
    (LedgerState.mk (fun q => if q = "a.py" then some "hello" else none)
        (fun _ => none) [] 0).disk "a.py" = some "hello" ∧
    ((lookupRec (recordRejection (LedgerState.mk (fun _ => none) (fun _ => none)
        [("a.py", ⟨3, none, 2, [], 0⟩)] 4) "a.py" []).records "a.py").map
      EditRecord.iteration = some 3 ∧
    lookupRec (complete (LedgerState.mk (fun _ => none) (fun _ => none)
        [("a.py", ⟨3, none, 2, [], 0⟩)] 4) "a.py").records "a.py" = none ∧
    lookupRec (sweepStale (LedgerState.mk (fun _ => none) (fun _ => none)
        [("a.py", ⟨3, none, 2, [], 0⟩)] 4) 100 10).records "a.py" = none ∧
    (lookupRec (beginEdit (LedgerState.mk
        (fun q => if q = "a.py" then some "hello" else none)
        (fun _ => none) [] 0) "a.py" 5).records "a.py").map
      EditRecord.iteration = some 0) :=
  ⟨by decide, by decide, by decide, rfl, by decide,
    iteration_monotonic
      (LedgerState.mk (fun _ => none) (fun _ => none)
        [("a.py", ⟨3, none, 2, [], 0⟩)] 4)
      (LedgerState.mk (fun q => if q = "a.py" then some "hello" else none)
        (fun _ => none) [] 0)
      "a.py" ⟨3, none, 2, [], 0⟩ [] 100 10 5 "hello"
      (by decide) (by decide) (by decide) rfl (by decide)⟩

theorem char_toNat_ofNat_valid (n : Nat) (h : n < 0xd800) :
    (Char.ofNat n).toNat = n := by
  unfold Char.ofNat
  rw [dif_pos (Or.inl h)]
  rfl

theorem char_toLower_toUpper (c : Char) : c.toUpper.toLower = c.toLower := by
  unfold Char.toUpper Char.toLower
  by_cases h : c.toNat ≥ 97 ∧ c.toNat ≤ 122
  · rw [if_pos h]
    have ht : (Char.ofNat (c.toNat - 32)).toNat = c.toNat - 32 :=
      char_toNat_ofNat_valid _ (by omega)
    rw [ht, if_pos (by omega), if_neg (by omega)]
    have h2 : c.toNat - 32 + 32 = c.toNat := by omega
    rw [h2, Char.ofNat_toNat]
  · rw [if_neg h]

theorem lowerL_upperStr (s : String) : lowerL (upperStr s) = lowerL s := by
  simp [lowerL, upperStr, List.map_map, Function.comp_def, char_toLower_toUpper]

theorem ruleMatches_upperStr (r : PatternRule) (cmd : String) :
    ruleMatches r (upperStr cmd) = ruleMatches r cmd := by
  unfold ruleMatches
  rw [lowerL_upperStr]

theorem checkCommand_upperStr (rules : List PatternRule) (cmd : String) :
    checkCommand rules (upperStr cmd) = checkCommand rules cmd := by
  induction rules with
  | nil => rfl
  | cons r rest ih =>
    rw [checkCommand, checkCommand, ruleMatches_upperStr, ih]

/-- C6: checkCommand evaluates the ordered rule list against the command
text case-insensitively: when the rules before r all fail to match and r
matches, the result is safe = false with r's reason (the first matching
rule in list order); when no rule matches the result is safe = true; and
the result is unchanged when the command's case is changed (upper-casing
the whole command). -/
theorem checkCommand_first_match (rules pre post : List PatternRule)
    (r : PatternRule) (cmd cmd2 : String)
    (hpre : ∀ r2 ∈ pre, ruleMatches r2 cmd = false)
    (hr : ruleMatches r cmd = true)
    (hnone : ∀ r2 ∈ rules, ruleMatches r2 cmd2 = false) :
    checkCommand (pre ++ r :: post) cmd = (false, some r.reason) ∧
    checkCommand rules cmd2 = (true, none) ∧
    checkCommand (pre ++ r :: post) (upperStr cmd) = (false, some r.reason) ∧
    checkCommand rules (upperStr cmd2) = checkCommand rules cmd2 := by
  have hfirst : ∀ pre2 : List PatternRule,
      (∀ r2 ∈ pre2, ruleMatches r2 cmd = false) →
      checkCommand (pre2 ++ r :: post) cmd = (false, some r.reason) := by
    intro pre2
    induction pre2 with
    | nil =>
      intro _
      rw [List.nil_append, checkCommand, if_pos hr]
    | cons q rest ih =>
      intro hq
      have hqf : ruleMatches q cmd = false := hq q (List.mem_cons_self q rest)
      rw [List.cons_append, checkCommand, if_neg (by rw [hqf]; simp)]
      exact ih fun r2 h2 => hq r2 (List.mem_cons_of_mem q h2)
  have hno : ∀ rs : List PatternRule,
      (∀ r2 ∈ rs, ruleMatches r2 cmd2 = false) →
      checkCommand rs cmd2 = (true, none) := by
    intro rs
    induction rs with
    | nil => intro _; rfl
    | cons q rest ih =>
      intro hq
      have hqf : ruleMatches q cmd2 = false := hq q (List.mem_cons_self q rest)
      rw [checkCommand, if_neg (by rw [hqf]; simp)]
      exact ih fun r2 h2 => hq r2 (List.mem_cons_of_mem q h2)
  refine ⟨hfirst pre hpre, hno rules hnone, ?_, checkCommand_upperStr rules cmd2⟩
  rw [checkCommand_upperStr]
  exact hfirst pre hpre

theorem checkCommand_first_match_witness :
    (∀ r2 ∈ [PatternRule.mk "git reset --hard" "Discards uncommitted work"],
      ruleMatches r2 "Git PUSH --force origin main" = false) ∧
    ruleMatches ⟨"git push --force", "Overwrites remote history"⟩
      "Git PUSH --force origin main" = true ∧
    (∀ r2 ∈ [PatternRule.mk "rm -rf" "Removes files recursively"],
      ruleMatches r2 "git status" = false) ∧
    (checkCommand
        ([⟨"git reset --hard", "Discards uncommitted work"⟩] ++
          ⟨"git push --force", "Overwrites remote history"⟩ ::
            [⟨"rm -rf", "Removes files recursively"⟩])
        "Git PUSH --force origin main" =
      (false, some "Overwrites remote history") ∧
    checkCommand [⟨"rm -rf", "Removes files recursively"⟩] "git status" =
      (true, none) ∧
    checkCommand
        ([⟨"git reset --hard", "Discards uncommitted work"⟩] ++
          ⟨"git push --force", "Overwrites remote history"⟩ ::
            [⟨"rm -rf", "Removes files recursively"⟩])
        (upperStr "Git PUSH --force origin main") =
      (false, some "Overwrites remote history") ∧
    checkCommand [⟨"rm -rf", "Removes files recursively"⟩] (upperStr "git status") =
      checkCommand [⟨"rm -rf", "Removes files recursively"⟩] "git status") :=
  ⟨by decide, by decide, by decide,
    checkCommand_first_match
      [⟨"rm -rf", "Removes files recursively"⟩]
      [⟨"git reset --hard", "Discards uncommitted work"⟩]
      [⟨"rm -rf", "Removes files recursively"⟩]
      ⟨"git push --force", "Overwrites remote history"⟩
      "Git PUSH --force origin main" "git status"
      (by decide) (by decide) (by decide)⟩

/-- C7: when the baseline and current line counts differ,
computeChangedLines marks every line index from min(oldCount,
newCount)+1 through max(oldCount, newCount)+1 as changed; in particular
a file shrinking from 50 to 30 lines yields exactly lines 31 through 51
(the conservative range), not merely the deleted range. -/
theorem computeChangedLines_conservative (baseline current : List String)
    (k : Nat)
    (hne : baseline.length ≠ current.length)
    (hlo : Nat.min baseline.length current.length + 1 ≤ k)
    (hhi : k ≤ Nat.max baseline.length current.length + 1) :
    k ∈ computeChangedLines baseline current ∧
    computeChangedLines (List.replicate 50 "x") (List.replicate 30 "x") =
      List.range' 31 21 := by
  constructor
  · simp only [computeChangedLines]
    apply List.mem_append_right
    rw [if_neg hne, List.mem_range'_1]
    omega
  · decide

theorem computeChangedLines_conservative_witness :
    (List.replicate 50 "x").length ≠ (List.replicate 30 "x").length ∧
    Nat.min (List.replicate 50 "x").length (List.replicate 30 "x").length + 1 ≤ 40 ∧
    40 ≤ Nat.max (List.replicate 50 "x").length (List.replicate 30 "x").length + 1 ∧
    (40 ∈ computeChangedLines (List.replicate 50 "x") (List.replicate 30 "x") ∧
      computeChangedLines (List.replicate 50 "x") (List.replicate 30 "x") =
        List.range' 31 21) :=
  ⟨by decide, by decide, by decide,
    computeChangedLines_conservative _ _ 40 (by decide) (by decide) (by decide)⟩

end Gate

namespace WebScrape

/-- C8: scrape_url always returns a string, turning a missing-content
condition into an error message rather than an exception: when
fetch_url's result is falsy the result is exactly
"ERROR: Could not fetch " ++ url, and when fetch succeeds with nonempty
content but extract's result is falsy the result is exactly
"ERROR: Could not extract content from " ++ url. -/
theorem scrape_url_error_strings
    (f1 f2 : String → Option String)
    (e1 e2 : String → String → Bool → Bool → Option String)
    (u1 u2 fmt1 fmt2 : String) (il1 il2 ii1 ii2 : Bool) (d : String)
    (h1 : truthy (f1 u1) = false)
    (h2 : f2 u2 = some d) (h3 : d.isEmpty = false)
    (h4 : truthy (e2 d fmt2 il2 ii2) = false) :
    scrape_url f1 e1 u1 fmt1 il1 ii1 = "ERROR: Could not fetch " ++ u1 ∧
    scrape_url f2 e2 u2 fmt2 il2 ii2 =
      "ERROR: Could not extract content from " ++ u2 := by
  constructor
  · cases hf : f1 u1 with
    | none => simp [scrape_url, hf]
    | some s0 =>
      rw [hf] at h1
      simp only [truthy, Bool.not_eq_false'] at h1
      simp [scrape_url, hf, h1]
  · cases he : e2 d fmt2 il2 ii2 with
    | none => simp [scrape_url, h2, h3, he]
    | some s0 =>
      rw [he] at h4
      simp only [truthy, Bool.not_eq_false'] at h4
      simp [scrape_url, h2, h3, he, h4]

theorem scrape_url_error_strings_witness :
    truthy ((fun _ : String => (none : Option String)) "u") = false ∧
    (fun _ : String => some "page") "v" = some "page" ∧
    ("page").isEmpty = false ∧
    truthy ((fun _ _ _ _ => (none : Option String)) "page" "txt" false true) = false ∧
    (scrape_url (fun _ => none) (fun _ _ _ _ => some "ok") "u" "markdown" true true =
        "ERROR: Could not fetch " ++ "u" ∧
      scrape_url (fun _ => some "page") (fun _ _ _ _ => none) "v" "txt" false true =
        "ERROR: Could not extract content from " ++ "v") :=
  ⟨rfl, rfl, by decide, rfl,
    scrape_url_error_strings (fun _ => none) (fun _ => some "page")
      (fun _ _ _ _ => some "ok") (fun _ _ _ _ => none)
      "u" "v" "markdown" "txt" true false true true "page"
      rfl rfl (by decide) rfl⟩

/-- C9: the --include-links and --include-images flags have no effect:
main's behavior depends only on the absence of --no-links / --no-images,
so two parses differing only in the include_links / include_images
fields behave identically for every scrape oracle; and when a URL is
present the scrape call receives include_links = not no_links and
include_images = not no_images. -/
theorem include_flags_no_effect
    (scrape : String → String → Bool → Bool → String)
    (u uf : Option String) (fmt : String)
    (il il2 nl ii ii2 ni : Bool) (args : Args)
    (hurl : truthy (pyOr args.url args.url_flag) = true) :
    main scrape ⟨u, uf, fmt, il, nl, ii, ni⟩ =
      main scrape ⟨u, uf, fmt, il2, nl, ii2, ni⟩ ∧
    main scrape args = MainResult.output
      (scrape ((pyOr args.url args.url_flag).getD "") args.format
        (! args.no_links) (! args.no_images)) := by
  refine ⟨rfl, ?_⟩
  simp [main, hurl]

theorem include_flags_no_effect_witness :
    truthy (pyOr (Args.mk (some "x.com") none "markdown" true false true false).url
        (Args.mk (some "x.com") none "markdown" true false true false).url_flag) = true ∧
    (main (fun u _ _ _ => u) ⟨some "x.com", none, "markdown", true, false, true, false⟩ =
        main (fun u _ _ _ => u)
          ⟨some "x.com", none, "markdown", false, false, false, false⟩ ∧
      main (fun u _ _ _ => u)
          (Args.mk (some "x.com") none "markdown" true false true false) =
        MainResult.output ((fun u _ _ _ => u)
          ((pyOr (Args.mk (some "x.com") none "markdown" true false true false).url
              (Args.mk (some "x.com") none "markdown" true false true false).url_flag).getD "")
          (Args.mk (some "x.com") none "markdown" true false true false).format
          (! (Args.mk (some "x.com") none "markdown" true false true false).no_links)
          (! (Args.mk (some "x.com") none "markdown" true false true false).no_images))) :=
  ⟨rfl, include_flags_no_effect (fun u _ _ _ => u) (some "x.com") none "markdown"
    true false false true false false
    ⟨some "x.com", none, "markdown", true, false, true, false⟩ rfl⟩

/-- C10: when neither the positional url nor the --url flag is given,
main prints the help text and exits with status 1, and it behaves
identically for every scrape oracle, i.e. scrape_url is never invoked. -/
theorem no_url_prints_help
    (scrape scrape2 : String → String → Bool → Bool → String)
    (fmt : String) (il nl ii ni : Bool) :
    main scrape ⟨none, none, fmt, il, nl, ii, ni⟩ =
      MainResult.helpExit helpText 1 ∧
    main scrape ⟨none, none, fmt, il, nl, ii, ni⟩ =
      main scrape2 ⟨none, none, fmt, il, nl, ii, ni⟩ :=
  ⟨rfl, rfl⟩

end WebScrape
